import Mathlib

/-!
# Verification of the result-computation engine of the `amiokay` quiz

The engine is the body of the `Results` component: four derivations over a
precomputed population dataset.

* `prevalenceResults` — ranked prevalence of the selected symptoms
  (the spec's `rankPrevalence`);
* `cooccurringSymptoms` — related-symptom suggestions from the pairwise
  co-occurrence table (the spec's `suggestRelated`);
* `specScores` — specialist recommendations by symptom-match count
  (the spec's `matchSpecialists`);
* `severityChartData` — the severity chart rows (the spec's
  `projectSeverity`), an anonymous `map` in the source.

JavaScript objects keyed by `String(id)` are modelled as association lists
over `Nat` keys; `x || y` on numbers and strings is modelled by `jsOr` /
`jsOrStr` (`0`, `""` and a missing property are all falsy). Percentages are
natural numbers. `Array.prototype.sort` with a consistent comparator is a
stable sort, modelled by `List.insertionSort`. `Object.entries` of an object
whose keys are numeric strings enumerates them in ascending numeric order,
modelled by sorting the key list.
-/

/-- JavaScript `a || b` for non-negative numbers: `0` (and a missing
property, which we conflate with `0`) is falsy. -/
def jsOr (a b : Nat) : Nat := if a = 0 then b else a

/-- JavaScript `a || b` for strings: `""` (and a missing property, which we
conflate with `""`) is falsy. -/
def jsOrStr (a b : String) : String := if a = "" then b else a

/-- An object keyed by `String(id)`, modelled with `Nat` keys. -/
abbrev Table (α : Type) := List (Nat × α)

/-- Property access `obj[String(k)]` on a `Table`. -/
def lookupTbl {α : Type} (t : Table α) (k : Nat) : Option α :=
  (t.find? (fun p => p.1 = k)).map Prod.snd

/-- One entry of `prevalence_overall.json`: overall prevalence of a symptom. -/
structure PrevalenceEntry where
  symptom_name : String
  category_icon : String
  percentage : Nat
deriving DecidableEq, Repr

/-- One entry of `prevalence_by_stage.json` for a given stage. -/
structure StagePrevalenceEntry where
  percentage : Nat
deriving DecidableEq, Repr

/-- One row of `cooccurrences.json`: directional pair with the percentage of
people reporting `symptom_id_a` who also report `symptom_id_b`. -/
structure CooccurrencePair where
  symptom_id_a : Nat
  symptom_id_b : Nat
  co_occurrence_pct : Nat
deriving DecidableEq, Repr

/-- One entry of `specialists.json`. -/
structure Specialist where
  specialist_id : Nat
  specialist_type : String
  description : String
  what_to_expect : String
  icon : String
  symptom_ids : List Nat
deriving DecidableEq, Repr

/-- One entry of `severity.json`: mild/moderate/severe percentages. -/
structure SeverityBreakdown where
  pct_mild : Nat
  pct_moderate : Nat
  pct_severe : Nat
deriving DecidableEq, Repr

/-- One row of `prevalenceResults`. -/
structure PrevRow where
  symptom_id : Nat
  symptom_name : String
  category_icon : String
  percentage : Nat
  overall_percentage : Nat
deriving DecidableEq, Repr

/-- The row built for a selected id: `overall = prevalence[String(id)] || {}`,
`byStage = stagePrevalence[String(id)] || {}`, every field resolved with the
source's `||` fallbacks. -/
def prevRow (stagePrevalence : Table StagePrevalenceEntry)
    (prevalence : Table PrevalenceEntry) (id : Nat) : PrevRow :=
  let overall := lookupTbl prevalence id
  let byStage := lookupTbl stagePrevalence id
  { symptom_id := id
    symptom_name :=
      jsOrStr ((overall.map (fun e => e.symptom_name)).getD "") (s!"Symptom {id}")
    category_icon :=
      jsOrStr ((overall.map (fun e => e.category_icon)).getD "") ""
    percentage :=
      jsOr ((byStage.map (fun e => e.percentage)).getD 0)
        (jsOr ((overall.map (fun e => e.percentage)).getD 0) 0)
    overall_percentage := jsOr ((overall.map (fun e => e.percentage)).getD 0) 0 }

/-- Descending order on effective percentage: the comparator
`(a, b) => b.percentage - a.percentage`. -/
def prevDesc (a b : PrevRow) : Prop := b.percentage ≤ a.percentage

instance : DecidableRel prevDesc := fun _ _ => Nat.decLe _ _

instance : IsTotal PrevRow prevDesc := ⟨fun a b => Nat.le_total b.percentage a.percentage⟩

instance : IsTrans PrevRow prevDesc := ⟨fun _ _ _ h1 h2 => Nat.le_trans h2 h1⟩

/-- The engine's prevalence ranking (the spec's `rankPrevalence`):
one row per selected id, sorted by effective percentage descending. -/
def prevalenceResults (selectedSymptoms : List Nat) (stage_id : Nat)
    (prevalence : Table PrevalenceEntry)
    (prevalenceByStage : Table (Table StagePrevalenceEntry)) : List PrevRow :=
  let stagePrevalence := (lookupTbl prevalenceByStage stage_id).getD []
  List.insertionSort prevDesc
    (selectedSymptoms.map (prevRow stagePrevalence prevalence))

/-- `Math.round(t / c)` for a non-negative integer total `t` and a positive
count `c`: round half up. -/
def roundDiv (t c : Nat) : Nat := (2 * t + c) / (2 * c)

/-- The accumulator object `coocScores`, modelled as a total map from candidate
id to `(total, count)`; an id the object does not hold maps to `(0, 0)`. -/
def coocBump (k pct : Nat) (acc : Nat → Nat × Nat) : Nat → Nat × Nat :=
  fun j => if j = k then ((acc k).1 + pct, (acc k).2 + 1) else acc j

/-- One iteration of the `cooccurrences.forEach` loop. -/
def coocStep (sel : List Nat) (acc : Nat → Nat × Nat) (row : CooccurrencePair) :
    Nat → Nat × Nat :=
  let acc1 :=
    if row.symptom_id_a ∈ sel ∧ row.symptom_id_b ∉ sel then
      coocBump row.symptom_id_b row.co_occurrence_pct acc
    else acc
  if row.symptom_id_b ∈ sel ∧ row.symptom_id_a ∉ sel then
    coocBump row.symptom_id_a row.co_occurrence_pct acc1
  else acc1

/-- The finished `coocScores` object after the `forEach` over all pairs. -/
def coocScores (sel : List Nat) (pairs : List CooccurrencePair) : Nat → Nat × Nat :=
  pairs.foldl (coocStep sel) (fun _ => (0, 0))

/-- The keys `Object.entries(coocScores)` enumerates: every id the loop
bumped at least once, in ascending numeric order (JavaScript enumerates
array-index-like keys in ascending order). -/
def coocKeys (sel : List Nat) (pairs : List CooccurrencePair) : List Nat :=
  List.insertionSort (· ≤ ·)
    (((pairs.map (fun r => r.symptom_id_a) ++ pairs.map (fun r => r.symptom_id_b)).filter
        (fun k => (coocScores sel pairs k).2 ≠ 0)).dedup)

/-- `Object.entries(coocScores)` as a list of `(id, total, count)`. -/
def coocEntries (sel : List Nat) (pairs : List CooccurrencePair) :
    List (Nat × Nat × Nat) :=
  (coocKeys sel pairs).map (fun k => (k, coocScores sel pairs k))

/-- One suggestion row. -/
structure CoocRow where
  symptom_name : String
  icon : String
  avg_pct : Nat
deriving DecidableEq, Repr

/-- The row built from one retained entry of `coocScores`. -/
def coocRow (prevalence : Table PrevalenceEntry) (kv : Nat × Nat × Nat) : CoocRow :=
  { symptom_name :=
      jsOrStr (((lookupTbl prevalence kv.1).map (fun e => e.symptom_name)).getD "")
        (s!"Symptom {kv.1}")
    icon :=
      jsOrStr (((lookupTbl prevalence kv.1).map (fun e => e.category_icon)).getD "") ""
    avg_pct := roundDiv kv.2.1 kv.2.2 }

/-- Descending order on mean co-occurrence percentage. -/
def coocDesc (a b : CoocRow) : Prop := b.avg_pct ≤ a.avg_pct

instance : DecidableRel coocDesc := fun _ _ => Nat.decLe _ _

instance : IsTotal CoocRow coocDesc := ⟨fun a b => Nat.le_total b.avg_pct a.avg_pct⟩

instance : IsTrans CoocRow coocDesc := ⟨fun _ _ _ h1 h2 => Nat.le_trans h2 h1⟩

/-- The engine's related-symptom suggestions (the spec's `suggestRelated`):
entries with `count >= 2`, mapped to rows, sorted by mean percentage
descending, first five. -/
def cooccurringSymptoms (sel : List Nat) (pairs : List CooccurrencePair)
    (prevalence : Table PrevalenceEntry) : List CoocRow :=
  (List.insertionSort coocDesc
      (((coocEntries sel pairs).filter (fun kv => 2 ≤ kv.2.2)).map
        (coocRow prevalence))).take 5

/-- One specialist match: `{ ...spec, matched, matchedNames, score }`. -/
structure SpecMatch where
  spec : Specialist
  matched : List Nat
  matchedNames : List String
  score : Nat
deriving DecidableEq, Repr

/-- The match record built for one specialist. -/
def specMatch (sel : List Nat) (prevalence : Table PrevalenceEntry)
    (spec : Specialist) : SpecMatch :=
  let matched := spec.symptom_ids.filter (fun id => id ∈ sel)
  { spec := spec
    matched := matched
    matchedNames :=
      matched.map (fun id =>
        jsOrStr (((lookupTbl prevalence id).map (fun e => e.symptom_name)).getD "") "")
    score := matched.length }

/-- Descending order on match score. -/
def specDesc (a b : SpecMatch) : Prop := b.score ≤ a.score

instance : DecidableRel specDesc := fun _ _ => Nat.decLe _ _

instance : IsTotal SpecMatch specDesc := ⟨fun a b => Nat.le_total b.score a.score⟩

instance : IsTrans SpecMatch specDesc := ⟨fun _ _ _ h1 h2 => Nat.le_trans h2 h1⟩

/-- The engine's specialist recommendations (the spec's `matchSpecialists`):
score each specialist by matched-symptom count, drop score: 0, sort
descending, first three. -/
def specScores (sel : List Nat) (specialists : List Specialist)
    (prevalence : Table PrevalenceEntry) : List SpecMatch :=
  (List.insertionSort specDesc
      ((specialists.map (specMatch sel prevalence)).filter (fun s => 0 < s.score))).take 3

/-- One row of the severity chart data. -/
structure SeverityChartRow where
  name : String
  Mild : Nat
  Moderate : Nat
  Severe : Nat
deriving DecidableEq, Repr

/-- The chart row built from one prevalence row: truncated label and
severity percentages with `|| 0` fallbacks. -/
def severityChartRow (severity : Table SeverityBreakdown) (row : PrevRow) :
    SeverityChartRow :=
  let sev := lookupTbl severity row.symptom_id
  { name :=
      if 15 < row.symptom_name.length then row.symptom_name.take 15 ++ "…"
      else row.symptom_name
    Mild := jsOr ((sev.map (fun e => e.pct_mild)).getD 0) 0
    Moderate := jsOr ((sev.map (fun e => e.pct_moderate)).getD 0) 0
    Severe := jsOr ((sev.map (fun e => e.pct_severe)).getD 0) 0 }

/-- The severity chart data (the spec's `projectSeverity`):
`prevalenceResults.map(row => ...)`, one chart row per prevalence row in
ranked order. -/
def severityChartData (prevRows : List PrevRow)
    (severity : Table SeverityBreakdown) : List SeverityChartRow :=
  prevRows.map (severityChartRow severity)

/-- A pair row contributes evidence for candidate `k`: exactly one side of
the pair is selected and the other side is `k`, which is not selected. -/
def contributes (sel : List Nat) (k : Nat) (row : CooccurrencePair) : Prop :=
  (row.symptom_id_a ∈ sel ∧ row.symptom_id_b ∉ sel ∧ row.symptom_id_b = k) ∨
  (row.symptom_id_b ∈ sel ∧ row.symptom_id_a ∉ sel ∧ row.symptom_id_a = k)

instance (sel : List Nat) (k : Nat) (row : CooccurrencePair) :
    Decidable (contributes sel k row) := by
  unfold contributes; exact inferInstance

/-- The rows of `pairs` contributing evidence for candidate `k`. -/
def contribRows (sel : List Nat) (k : Nat) (pairs : List CooccurrencePair) :
    List CooccurrencePair :=
  pairs.filter (fun row => decide (contributes sel k row))

/-- The loop body changes the accumulator at key `k` exactly when the row
contributes evidence for `k`, and then adds the row's percentage and bumps
the count by one. -/
theorem coocStep_apply (sel : List Nat) (acc : Nat → Nat × Nat)
    (row : CooccurrencePair) (k : Nat) :
    coocStep sel acc row k =
      if contributes sel k row then
        ((acc k).1 + row.co_occurrence_pct, (acc k).2 + 1)
      else acc k := by
  by_cases h1 : row.symptom_id_a ∈ sel <;>
    by_cases h2 : row.symptom_id_b ∈ sel <;>
      by_cases h3 : row.symptom_id_a = k <;>
        by_cases h4 : row.symptom_id_b = k <;>
          simp_all [coocStep, coocBump, contributes] <;>
            (intro heq; subst heq; simp_all)

/-- Running the loop from any starting accumulator adds, at each key `k`, the
sum of the contributing rows' percentages and their number. -/
theorem coocScores_foldl (sel : List Nat) (k : Nat) :
    ∀ (pairs : List CooccurrencePair) (acc : Nat → Nat × Nat),
      pairs.foldl (coocStep sel) acc k =
        ((acc k).1 + ((contribRows sel k pairs).map
            (fun r => r.co_occurrence_pct)).sum,
          (acc k).2 + (contribRows sel k pairs).length)
  | [], acc => by simp [contribRows]
  | row :: rest, acc => by
    by_cases h : contributes sel k row <;>
      simp [List.foldl_cons, coocScores_foldl sel k rest, coocStep_apply, h,
        contribRows, List.filter_cons]
    omega

/-- The finished accumulator holds, for each candidate, the sum of the
contributing rows' percentages and their number. -/
theorem coocScores_eq (sel : List Nat) (pairs : List CooccurrencePair) (k : Nat) :
    coocScores sel pairs k =
      (((contribRows sel k pairs).map (fun r => r.co_occurrence_pct)).sum,
        (contribRows sel k pairs).length) := by
  simpa [coocScores] using coocScores_foldl sel k pairs (fun _ => (0, 0))

theorem jsOr_zero_right (a : Nat) : jsOr a 0 = a := by
  unfold jsOr; split <;> simp_all

theorem jsOr_zero_left (b : Nat) : jsOr 0 b = b := by
  simp [jsOr]

/-- `roundDiv t c` is a nearest integer to `t / c`: its distance to the exact
ratio is at most one half, stated multiplied out over `Nat`. -/
theorem roundDiv_bounds (t c : Nat) (hc : 0 < c) :
    2 * c * roundDiv t c ≤ 2 * t + c ∧ 2 * t ≤ 2 * c * roundDiv t c + c := by
  have h1 : 2 * c * ((2 * t + c) / (2 * c)) + (2 * t + c) % (2 * c) = 2 * t + c :=
    Nat.div_add_mod _ _
  have h2 : (2 * t + c) % (2 * c) < 2 * c := Nat.mod_lt _ (by omega)
  unfold roundDiv
  revert h1 h2
  generalize (2 * t + c) / (2 * c) = q
  generalize (2 * t + c) % (2 * c) = r
  intro h1 h2
  constructor <;> linarith [h1, h2]

/-- Every entry of `Object.entries(coocScores)` is its key paired with the
accumulated `(total, count)` of that key's contributing rows. -/
theorem mem_coocEntries {sel : List Nat} {pairs : List CooccurrencePair}
    {kv : Nat × Nat × Nat} (h : kv ∈ coocEntries sel pairs) :
    kv = (kv.1, ((contribRows sel kv.1 pairs).map
        (fun r => r.co_occurrence_pct)).sum,
      (contribRows sel kv.1 pairs).length) := by
  unfold coocEntries at h
  obtain ⟨k, _, rfl⟩ := List.mem_map.mp h
  simp [coocScores_eq]

/-- Every suggestion row comes from a retained entry: a candidate with
`count >= 2`, mapped through `coocRow`. -/
theorem mem_cooccurringSymptoms {sel : List Nat} {pairs : List CooccurrencePair}
    {prevalence : Table PrevalenceEntry} {r : CoocRow}
    (h : r ∈ cooccurringSymptoms sel pairs prevalence) :
    ∃ kv ∈ coocEntries sel pairs, 2 ≤ kv.2.2 ∧ r = coocRow prevalence kv := by
  unfold cooccurringSymptoms at h
  have h1 := List.mem_of_mem_take h
  have h2 := (List.mem_insertionSort coocDesc).mp h1
  obtain ⟨kv, hkv, rfl⟩ := List.mem_map.mp h2
  have h3 := List.mem_filter.mp hkv
  exact ⟨kv, h3.1, by simpa using h3.2, rfl⟩

/-- Every returned specialist match is the match record of one of the input
specialists, and survived the positive-score filter. -/
theorem mem_specScores {sel : List Nat} {specialists : List Specialist}
    {prevalence : Table PrevalenceEntry} {m : SpecMatch}
    (h : m ∈ specScores sel specialists prevalence) :
    ∃ spec ∈ specialists, m = specMatch sel prevalence spec ∧ 0 < m.score := by
  unfold specScores at h
  have h1 := List.mem_of_mem_take h
  have h2 := (List.mem_insertionSort specDesc).mp h1
  have h3 := List.mem_filter.mp h2
  obtain ⟨spec, hs, rfl⟩ := List.mem_map.mp h3.1
  exact ⟨spec, hs, rfl, by simpa using h3.2⟩

/-- The prevalence row depends on the stage table only through the effective
stage percentage looked up for the id. -/
theorem prevRow_stage_ext (s1 s2 : Table StagePrevalenceEntry)
    (prevalence : Table PrevalenceEntry) (id : Nat)
    (h : ((lookupTbl s1 id).map (fun e => e.percentage)).getD 0 =
      ((lookupTbl s2 id).map (fun e => e.percentage)).getD 0) :
    prevRow s1 prevalence id = prevRow s2 prevalence id := by
  simp only [prevRow, h]

/-- C3: for every selection and stage the output of the prevalence ranking is
sorted by effective percentage in descending order, and on the end-to-end
scenario (overall `{1: 30, 2: 70}`, stage-`7` table `{1: 40}`, selection
`[1, 2]`) the ranked output is `[(2, 70), (1, 40)]`. -/
theorem rankPrevalence_sorted_and_scenario :
    (∀ (sel : List Nat) (stage : Nat) (prevalence : Table PrevalenceEntry)
        (byStage : Table (Table StagePrevalenceEntry)),
      List.Sorted prevDesc (prevalenceResults sel stage prevalence byStage)) ∧
    (prevalenceResults [1, 2] 7 [(1, ⟨"A", "", 30⟩), (2, ⟨"B", "", 70⟩)]
        [(7, [(1, ⟨40⟩)])]).map (fun r => (r.symptom_id, r.percentage)) =
      [(2, 70), (1, 40)] :=
  ⟨fun _ _ _ _ => List.sorted_insertionSort prevDesc _, by decide⟩

/-- C2 counterexample: with the duplicated selection `[1, 1]` the ranking
outputs two identical rows — the output is not duplicate-free, while the
deduplicated selection `[1]` produces a single row. -/
theorem rankPrevalence_duplicate_counterexample :
    (prevalenceResults [1, 1] 0 [(1, ⟨"A", "", 30⟩)] []).length = 2 ∧
    ¬ (prevalenceResults [1, 1] 0 [(1, ⟨"A", "", 30⟩)] []).Nodup ∧
    (prevalenceResults [1] 0 [(1, ⟨"A", "", 30⟩)] []).length = 1 := by
  refine ⟨by decide, ?_, by decide⟩
  intro h
  exact absurd h (by decide)

/-- C2 amended: the ranking does not collapse duplicated ids — the output has
one row per selection element, so a duplicated id yields a duplicated row —
but the set of distinct rows is the same as for the deduplicated selection,
and each row's percentages are computed independently per occurrence. -/
theorem rankPrevalence_duplicate_amended :
    ∀ (sel : List Nat) (stage : Nat) (prevalence : Table PrevalenceEntry)
      (byStage : Table (Table StagePrevalenceEntry)),
      (prevalenceResults sel stage prevalence byStage).toFinset =
        (prevalenceResults sel.dedup stage prevalence byStage).toFinset ∧
      (prevalenceResults sel stage prevalence byStage).length = sel.length := by
  intro sel stage prevalence byStage
  constructor
  · apply List.toFinset.ext
    intro x
    simp [prevalenceResults, List.mem_insertionSort]
  · unfold prevalenceResults
    rw [(List.perm_insertionSort prevDesc _).length_eq, List.length_map]

/-- C4: a selected id that has an overall entry but no stage-specific entry
for the chosen stage gets the overall percentage as its effective
percentage, whatever the stage is. -/
theorem rankPrevalence_overall_fallback :
    ∀ (sel : List Nat) (stage : Nat) (prevalence : Table PrevalenceEntry)
      (byStage : Table (Table StagePrevalenceEntry)) (id : Nat)
      (e : PrevalenceEntry),
      id ∈ sel → lookupTbl prevalence id = some e →
      lookupTbl ((lookupTbl byStage stage).getD []) id = none →
      ∃ r ∈ prevalenceResults sel stage prevalence byStage,
        r.symptom_id = id ∧ r.percentage = e.percentage := by
  intro sel stage prevalence byStage id e hmem hov hst
  refine ⟨prevRow ((lookupTbl byStage stage).getD []) prevalence id, ?_, ?_, ?_⟩
  · unfold prevalenceResults
    exact (List.mem_insertionSort prevDesc).mpr (List.mem_map_of_mem _ hmem)
  · rfl
  · simp only [prevRow, hov, hst]
    simp [jsOr_zero_left, jsOr_zero_right]

/-- C4 witness: the overall fallback at a concrete input. -/
theorem rankPrevalence_overall_fallback_witness :
    ∃ r ∈ prevalenceResults [5] 1 [(5, ⟨"N", "", 20⟩)] [],
      r.symptom_id = 5 ∧ r.percentage = 20 :=
  rankPrevalence_overall_fallback [5] 1 [(5, ⟨"N", "", 20⟩)] [] 5 ⟨"N", "", 20⟩
    (by decide) (by decide) (by decide)

/-- C10: the `||` fallback chain short-circuits on any falsy percentage, not
only on a missing entry: a stage entry holding percentage `0` behaves
exactly like an absent stage entry (stated for the row builder and for the
full ranking), and when the overall percentage is also `0` the effective
percentage is the default `0`. -/
theorem stage_zero_pct_fallthrough :
    (∀ (s1 s2 : Table StagePrevalenceEntry) (prevalence : Table PrevalenceEntry)
        (id : Nat) (e : StagePrevalenceEntry),
      lookupTbl s1 id = some e → e.percentage = 0 → lookupTbl s2 id = none →
      prevRow s1 prevalence id = prevRow s2 prevalence id) ∧
    (∀ (sel : List Nat) (stage : Nat) (prevalence : Table PrevalenceEntry)
        (i : Nat),
      prevalenceResults sel stage prevalence [(stage, [(i, ⟨0⟩)])] =
        prevalenceResults sel stage prevalence []) ∧
    (∀ (s1 : Table StagePrevalenceEntry) (prevalence : Table PrevalenceEntry)
        (id : Nat) (e : StagePrevalenceEntry) (oe : PrevalenceEntry),
      lookupTbl s1 id = some e → e.percentage = 0 →
      lookupTbl prevalence id = some oe → oe.percentage = 0 →
      (prevRow s1 prevalence id).percentage = 0) := by
  refine ⟨?_, ?_, ?_⟩
  · intro s1 s2 prevalence id e h1 h2 h3
    exact prevRow_stage_ext s1 s2 prevalence id (by simp [h1, h2, h3])
  · intro sel stage prevalence i
    unfold prevalenceResults
    dsimp only
    congr 1
    apply List.map_congr_left
    intro a _
    apply prevRow_stage_ext
    by_cases hai : a = i
    · simp [lookupTbl, hai]
    · simp [lookupTbl, hai, Ne.symm hai]
  · intro s1 prevalence id e oe h1 h2 h3 h4
    simp [prevRow, h1, h2, h3, h4, jsOr]

/-- C10 witness: the fallthrough at concrete inputs. -/
theorem stage_zero_pct_fallthrough_witness :
    prevRow [(4, ⟨0⟩)] [(4, ⟨"N", "", 25⟩)] 4 = prevRow [] [(4, ⟨"N", "", 25⟩)] 4 ∧
    (prevRow [(4, ⟨0⟩)] [(4, ⟨"Z", "", 0⟩)] 4).percentage = 0 :=
  ⟨stage_zero_pct_fallthrough.1 [(4, ⟨0⟩)] [] [(4, ⟨"N", "", 25⟩)] 4 ⟨0⟩
      (by decide) (by decide) (by decide),
    stage_zero_pct_fallthrough.2.2 [(4, ⟨0⟩)] [(4, ⟨"Z", "", 0⟩)] 4 ⟨0⟩ ⟨"Z", "", 0⟩
      (by decide) (by decide) (by decide) (by decide)⟩

/-- C1 counterexample: with selection `[1]` — a single selected symptom, so
any candidate's evidence comes from at most one distinct selected symptom —
and both stored directions of the pair `(1, 3)`, candidate `3` accumulates
two contributions from the single selected symptom `1` and is kept (with
mean `round(92.5) = 93`), contradicting the claimed exclusion. -/
theorem cooc_support_claim_counterexample :
    cooccurringSymptoms [1] [⟨1, 3, 95⟩, ⟨3, 1, 90⟩] [] =
      [⟨"Symptom 3", "", 93⟩] := by decide

/-- C1 amended: a candidate is kept only if at least `2` co-occurrence pair
rows contribute evidence for it — the filter counts contributing rows, not
distinct selected symptoms, so two directional rows involving the same
selected symptom suffice; the retained score is the rounded mean over those
contributing rows. -/
theorem cooc_support_amended :
    ∀ (sel : List Nat) (pairs : List CooccurrencePair)
      (prevalence : Table PrevalenceEntry) (r : CoocRow),
      r ∈ cooccurringSymptoms sel pairs prevalence →
      ∃ k, 2 ≤ (contribRows sel k pairs).length ∧
        r.avg_pct = roundDiv
          (((contribRows sel k pairs).map (fun p => p.co_occurrence_pct)).sum)
          ((contribRows sel k pairs).length) := by
  intro sel pairs prevalence r h
  obtain ⟨kv, hkv, hc, rfl⟩ := mem_cooccurringSymptoms h
  have he := mem_coocEntries hkv
  obtain ⟨k, t, c⟩ := kv
  simp only [Prod.mk.injEq] at he
  obtain ⟨-, ht, hcl⟩ := he
  subst ht
  subst hcl
  exact ⟨k, by simpa using hc, rfl⟩

/-- C1 amended witness: the amended support rule at the counterexample
input. -/
theorem cooc_support_amended_witness :
    ∃ k, 2 ≤ (contribRows [1] k [⟨1, 3, 95⟩, ⟨3, 1, 90⟩]).length ∧
      (93 : Nat) = roundDiv
        (((contribRows [1] k [⟨1, 3, 95⟩, ⟨3, 1, 90⟩]).map
          (fun p => p.co_occurrence_pct)).sum)
        ((contribRows [1] k [⟨1, 3, 95⟩, ⟨3, 1, 90⟩]).length) := by
  have h := cooc_support_amended [1] [⟨1, 3, 95⟩, ⟨3, 1, 90⟩] []
    ⟨"Symptom 3", "", 93⟩ (by decide)
  simpa using h

/-- An input element that is not among the first `n` of the sorted output is
outranked: the first `n` are then a full `n` and each of them is related to
it. This is the maximality of a sort-then-take selection. -/
theorem take_sorted_maximal {α : Type} (r : α → α → Prop) [DecidableRel r]
    [IsTotal α r] [IsTrans α r] (n : Nat) (l : List α) (x : α) (hx : x ∈ l) :
    x ∈ (List.insertionSort r l).take n ∨
    (((List.insertionSort r l).take n).length = n ∧
      ∀ y ∈ (List.insertionSort r l).take n, r y x) := by
  by_cases hmem : x ∈ (List.insertionSort r l).take n
  · exact Or.inl hmem
  · right
    have hxs : x ∈ List.insertionSort r l := (List.mem_insertionSort r).mpr hx
    have hsplit : x ∈ (List.insertionSort r l).take n ++
        (List.insertionSort r l).drop n := by
      rwa [List.take_append_drop]
    have hxd : x ∈ (List.insertionSort r l).drop n := by
      rcases List.mem_append.mp hsplit with h | h
      · exact absurd h hmem
      · exact h
    have hlen : n < (List.insertionSort r l).length := by
      have h1 : 0 < ((List.insertionSort r l).drop n).length :=
        List.length_pos.mpr (List.ne_nil_of_mem hxd)
      rw [List.length_drop] at h1
      omega
    refine ⟨?_, ?_⟩
    · rw [List.length_take]
      omega
    · have hp : List.Pairwise r (List.insertionSort r l) :=
        List.sorted_insertionSort r l
      rw [← List.take_append_drop n (List.insertionSort r l)] at hp
      intro y hy
      exact (List.pairwise_append.mp hp).2.2 y hy x hxd

/-- C7: every suggestion's score is the rounded arithmetic mean of the
accumulated percentages of some retained candidate (nearest-integer bounds
stated multiplied out), the output is sorted by mean score descending with
at most five entries, when no candidate reaches the support threshold the
output is the empty list, and the selection is maximal: every qualifying
candidate (support at least two) is either in the output or displaced by a
full five suggestions each scoring at least its mean. -/
theorem cooc_score_mean_topN :
    ∀ (sel : List Nat) (pairs : List CooccurrencePair)
      (prevalence : Table PrevalenceEntry),
      (∀ r ∈ cooccurringSymptoms sel pairs prevalence,
        ∃ t c, 2 ≤ c ∧ (∃ k, (k, t, c) ∈ coocEntries sel pairs) ∧
          r.avg_pct = roundDiv t c ∧
          2 * c * r.avg_pct ≤ 2 * t + c ∧ 2 * t ≤ 2 * c * r.avg_pct + c) ∧
      List.Sorted coocDesc (cooccurringSymptoms sel pairs prevalence) ∧
      (cooccurringSymptoms sel pairs prevalence).length ≤ 5 ∧
      ((∀ kv ∈ coocEntries sel pairs, kv.2.2 < 2) →
        cooccurringSymptoms sel pairs prevalence = []) ∧
      (∀ kv ∈ coocEntries sel pairs, 2 ≤ kv.2.2 →
        coocRow prevalence kv ∈ cooccurringSymptoms sel pairs prevalence ∨
        ((cooccurringSymptoms sel pairs prevalence).length = 5 ∧
          ∀ r ∈ cooccurringSymptoms sel pairs prevalence,
            (coocRow prevalence kv).avg_pct ≤ r.avg_pct)) := by
  intro sel pairs prevalence
  refine ⟨?_, ?_, ?_, ?_, ?_⟩
  · intro r hr
    obtain ⟨kv, hkv, hc, rfl⟩ := mem_cooccurringSymptoms hr
    obtain ⟨k, t, c⟩ := kv
    have hc2 : 2 ≤ c := by simpa using hc
    have hcpos : 0 < c := by omega
    have hb := roundDiv_bounds t c hcpos
    exact ⟨t, c, hc2, ⟨k, hkv⟩, rfl, hb.1, hb.2⟩
  · exact List.Pairwise.sublist (List.take_sublist 5 _)
      (List.sorted_insertionSort coocDesc _)
  · exact List.length_take_le 5 _
  · intro hall
    unfold cooccurringSymptoms
    have hfil : (coocEntries sel pairs).filter (fun kv => 2 ≤ kv.2.2) = [] := by
      apply List.filter_eq_nil_iff.mpr
      intro kv hkv
      simpa using Nat.not_le.mpr (hall kv hkv)
    rw [hfil]
    rfl
  · intro kv hkv hq
    have hmem : coocRow prevalence kv ∈
        ((coocEntries sel pairs).filter (fun kv => 2 ≤ kv.2.2)).map
          (coocRow prevalence) :=
      List.mem_map_of_mem _ (List.mem_filter.mpr ⟨hkv, by simpa using hq⟩)
    unfold cooccurringSymptoms
    exact take_sorted_maximal coocDesc 5 _ _ hmem

/-- C7 witness: with a single contributing pair no candidate reaches the
support threshold and the suggestion list is empty; with both directions of
the pair stored, the qualifying candidate is in the top five or displaced
by five suggestions scoring at least its mean. -/
theorem cooc_score_mean_topN_witness :
    cooccurringSymptoms [1] [⟨1, 3, 95⟩] [] = [] ∧
    (coocRow [] (3, 185, 2) ∈ cooccurringSymptoms [1] [⟨1, 3, 95⟩, ⟨3, 1, 90⟩] [] ∨
      ((cooccurringSymptoms [1] [⟨1, 3, 95⟩, ⟨3, 1, 90⟩] []).length = 5 ∧
        ∀ r ∈ cooccurringSymptoms [1] [⟨1, 3, 95⟩, ⟨3, 1, 90⟩] [],
          (coocRow [] (3, 185, 2)).avg_pct ≤ r.avg_pct)) := by
  constructor
  · exact (cooc_score_mean_topN [1] [⟨1, 3, 95⟩] []).2.2.2.1 (by decide)
  · exact (cooc_score_mean_topN [1] [⟨1, 3, 95⟩, ⟨3, 1, 90⟩] []).2.2.2.2
      (3, 185, 2) (by decide) (by decide)

/-- C6: the specialist matching returns at most three entries, in
non-increasing score order, every returned entry has a positive score, its
matched list is the specialist's symptom ids restricted to the selection,
its score is the matched count, and — for a specialist whose associated ids
form a set (no duplicates) — the score is the cardinality of the
intersection of its associated ids with the selection. -/
theorem specScores_topN_ordering :
    ∀ (sel : List Nat) (specialists : List Specialist)
      (prevalence : Table PrevalenceEntry),
      (specScores sel specialists prevalence).length ≤ 3 ∧
      List.Sorted specDesc (specScores sel specialists prevalence) ∧
      ∀ m ∈ specScores sel specialists prevalence,
        0 < m.score ∧
        m.matched = m.spec.symptom_ids.filter (fun id => decide (id ∈ sel)) ∧
        m.score = m.matched.length ∧
        (m.spec.symptom_ids.Nodup →
          m.score = (m.spec.symptom_ids.toFinset ∩ sel.toFinset).card) := by
  intro sel specialists prevalence
  refine ⟨List.length_take_le 3 _,
    List.Pairwise.sublist (List.take_sublist 3 _)
      (List.sorted_insertionSort specDesc _), ?_⟩
  intro m hm
  obtain ⟨spec, hs, rfl, hpos⟩ := mem_specScores hm
  refine ⟨hpos, rfl, rfl, ?_⟩
  intro hnd
  have hnd2 : (spec.symptom_ids.filter (fun id => decide (id ∈ sel))).Nodup :=
    hnd.filter _
  have hts : (spec.symptom_ids.filter (fun id => decide (id ∈ sel))).toFinset =
      spec.symptom_ids.toFinset ∩ sel.toFinset := by
    ext a
    simp [List.mem_filter]
  show (spec.symptom_ids.filter (fun id => decide (id ∈ sel))).length = _
  rw [← List.toFinset_card_of_nodup hnd2, hts]
  rfl

/-- C6 witness: the intersection-cardinality score at a concrete input. -/
theorem specScores_topN_witness :
    0 < (specMatch [1, 2] [] ⟨10, "X", "", "", "", [1, 2, 3]⟩).score ∧
    (specMatch [1, 2] [] ⟨10, "X", "", "", "", [1, 2, 3]⟩).score =
      ((⟨10, "X", "", "", "", [1, 2, 3]⟩ : Specialist).symptom_ids.toFinset ∩
        ([1, 2] : List Nat).toFinset).card := by
  have h := (specScores_topN_ordering [1, 2] [⟨10, "X", "", "", "", [1, 2, 3]⟩] []).2.2
    (specMatch [1, 2] [] ⟨10, "X", "", "", "", [1, 2, 3]⟩) (by decide)
  exact ⟨h.1, h.2.2.2 (by decide)⟩

/-- Two selections on which every loop iteration acts identically produce the
same accumulator. -/
theorem foldl_coocStep_congr (sel1 sel2 : List Nat) :
    ∀ (pairs : List CooccurrencePair),
      (∀ p ∈ pairs, ∀ acc, coocStep sel1 acc p = coocStep sel2 acc p) →
      ∀ acc, pairs.foldl (coocStep sel1) acc = pairs.foldl (coocStep sel2) acc
  | [], _, _ => rfl
  | p :: ps, h, acc => by
    rw [List.foldl_cons, List.foldl_cons, h p (by simp)]
    exact foldl_coocStep_congr sel1 sel2 ps (fun q hq => h q (by simp [hq])) _

/-- C5: a selected id absent from all lookup tables is resolved, never an
error: the ranking gives it percentage `0`, overall percentage `0` and the
placeholder name; and an id no specialist lists and no co-occurrence pair
mentions leaves the specialist matching and the suggestions unchanged when
added to the selection — it is simply unmatched. -/
theorem unknown_id_safety :
    ∀ (sel : List Nat) (stage : Nat) (prevalence : Table PrevalenceEntry)
      (byStage : Table (Table StagePrevalenceEntry))
      (specialists : List Specialist) (pairs : List CooccurrencePair) (x : Nat),
      (x ∈ sel → lookupTbl prevalence x = none →
        lookupTbl ((lookupTbl byStage stage).getD []) x = none →
        ∃ r ∈ prevalenceResults sel stage prevalence byStage,
          r.symptom_id = x ∧ r.percentage = 0 ∧ r.overall_percentage = 0 ∧
            r.symptom_name = s!"Symptom {x}") ∧
      ((∀ s ∈ specialists, x ∉ s.symptom_ids) →
        specScores (x :: sel) specialists prevalence =
          specScores sel specialists prevalence) ∧
      ((∀ p ∈ pairs, p.symptom_id_a ≠ x ∧ p.symptom_id_b ≠ x) →
        cooccurringSymptoms (x :: sel) pairs prevalence =
          cooccurringSymptoms sel pairs prevalence) := by
  intro sel stage prevalence byStage specialists pairs x
  refine ⟨?_, ?_, ?_⟩
  · intro hmem hov hst
    refine ⟨prevRow ((lookupTbl byStage stage).getD []) prevalence x, ?_, ?_⟩
    · unfold prevalenceResults
      exact (List.mem_insertionSort prevDesc).mpr (List.mem_map_of_mem _ hmem)
    · simp [prevRow, hov, hst, jsOr, jsOrStr]
  · intro hns
    have hm : ∀ s ∈ specialists,
        specMatch (x :: sel) prevalence s = specMatch sel prevalence s := by
      intro s hs
      have hfil : s.symptom_ids.filter (fun id => decide (id ∈ x :: sel)) =
          s.symptom_ids.filter (fun id => decide (id ∈ sel)) := by
        apply List.filter_congr
        intro a ha
        have hax : a ≠ x := fun h => (hns s hs) (h ▸ ha)
        simp [List.mem_cons, hax]
      simp only [specMatch]
      rw [hfil]
    unfold specScores
    rw [List.map_congr_left hm]
  · intro hp
    have hscores : coocScores (x :: sel) pairs = coocScores sel pairs := by
      unfold coocScores
      refine foldl_coocStep_congr (x :: sel) sel pairs ?_ _
      intro p hmem acc
      obtain ⟨ha, hb⟩ := hp p hmem
      unfold coocStep coocBump
      simp [List.mem_cons, ha, hb]
    unfold cooccurringSymptoms coocEntries coocKeys
    rw [hscores]

/-- C5 witness: unknown-id behaviour at concrete inputs. -/
theorem unknown_id_safety_witness :
    (∃ r ∈ prevalenceResults [9] 0 [] [],
      r.symptom_id = 9 ∧ r.percentage = 0 ∧ r.overall_percentage = 0 ∧
        r.symptom_name = s!"Symptom {9}") ∧
    specScores (9 :: [2]) [⟨1, "X", "", "", "", [2]⟩] [] =
      specScores [2] [⟨1, "X", "", "", "", [2]⟩] [] ∧
    cooccurringSymptoms (9 :: [2]) [⟨2, 3, 50⟩] [] =
      cooccurringSymptoms [2] [⟨2, 3, 50⟩] [] := by
  have ha := (unknown_id_safety [9] 0 [] [] [] [] 9).1 (by decide) (by decide)
    (by decide)
  have hb := (unknown_id_safety [2] 0 [] [] [⟨1, "X", "", "", "", [2]⟩]
    [⟨2, 3, 50⟩] 9).2
  exact ⟨ha, hb.1 (by decide), hb.2 (by decide)⟩

/-- C9: each severity chart row corresponds positionally to its prevalence
row (ranked order preserved); the label is the symptom name unchanged when
its length is within the 15-character budget and otherwise the 15-character
prefix followed by the ellipsis; the three severity percentages come from
the severity lookup, each defaulting to `0` when the symptom is absent. -/
theorem severity_chart_shape :
    ∀ (rows : List PrevRow) (severity : Table SeverityBreakdown),
      List.Forall₂ (fun (r : PrevRow) (o : SeverityChartRow) =>
          (r.symptom_name.length ≤ 15 → o.name = r.symptom_name) ∧
          (15 < r.symptom_name.length →
            o.name = r.symptom_name.take 15 ++ "…") ∧
          (lookupTbl severity r.symptom_id = none →
            o.Mild = 0 ∧ o.Moderate = 0 ∧ o.Severe = 0) ∧
          (∀ b, lookupTbl severity r.symptom_id = some b →
            o.Mild = b.pct_mild ∧ o.Moderate = b.pct_moderate ∧
              o.Severe = b.pct_severe))
        rows (severityChartData rows severity) := by
  intro rows severity
  unfold severityChartData
  rw [List.forall₂_map_right_iff]
  apply List.forall₂_same.mpr
  intro r _
  refine ⟨?_, ?_, ?_, ?_⟩
  · intro hle
    simp [severityChartRow, Nat.not_lt.mpr hle]
  · intro hlt
    simp [severityChartRow, hlt]
  · intro hnone
    simp [severityChartRow, hnone, jsOr]
  · intro b hb
    simp [severityChartRow, hb, jsOr_zero_right]

/-- C9 witness: the chart row at a concrete input. -/
theorem severity_chart_shape_witness :
    ∃ o : SeverityChartRow,
      severityChartData [⟨5, "Fatigue", "", 10, 10⟩] [] = [o] ∧
      o.name = "Fatigue" ∧ o.Mild = 0 ∧ o.Moderate = 0 ∧ o.Severe = 0 := by
  have h := severity_chart_shape [⟨5, "Fatigue", "", 10, 10⟩] []
  rw [show severityChartData [⟨5, "Fatigue", "", 10, 10⟩] [] =
      [severityChartRow [] ⟨5, "Fatigue", "", 10, 10⟩] from rfl] at h
  obtain ⟨hR, -⟩ := List.forall₂_cons.mp h
  obtain ⟨hz1, hz2, hz3⟩ := hR.2.2.1 (by decide)
  exact ⟨severityChartRow [] ⟨5, "Fatigue", "", 10, 10⟩, rfl,
    hR.1 (by decide), hz1, hz2, hz3⟩
